import Mathlib

/-!
Verification of `beliefs/models/belief_update_node_model.py` (Pearl belief
update on a DAG).  Numeric arrays are embedded as lists of rationals
(`Vec`); Python exceptions become an explicit `Err` type and every mutating
method is embedded in state-passing style, returning the raised error or
result together with the post-state, with mutations sequenced exactly as in
the source.
-/

namespace Beliefs

/-- A numpy 1-D array of floats, idealized as a list of rationals. -/
abbrev Vec := List ℚ

/-- Python truthiness of `arr.any()`: some element is non-zero. -/
def np_any (v : Vec) : Bool :=
  v.any (fun x => x ≠ 0)

/-- `np.multiply` on equal-length 1-D arrays: elementwise product. -/
def np_multiply (a b : Vec) : Vec :=
  List.zipWith (fun x y => x * y) a b

/-- The largest finite IEEE double, `(2 - 2^-52) * 2^1023`, as an exact
rational; `np.nan_to_num` substitutes it for `+inf`. -/
def floatMax : ℚ := (2 ^ 53 - 1) * 2 ^ 971

/-- Result of one scalar `np.divide`: a float that may be infinite or nan. -/
inductive NpFloat
  | finite (q : ℚ)
  | posinf
  | neginf
  | nan
deriving DecidableEq

/-- Scalar `np.divide`: division by zero yields `±inf`, and `0/0` yields
`nan` (warnings suppressed by the source's `np.errstate`). -/
def np_divide_scalar (a b : ℚ) : NpFloat :=
  if b = 0 then
    if a = 0 then .nan
    else if a > 0 then .posinf
    else .neginf
  else .finite (a / b)

/-- Scalar `np.nan_to_num` with default arguments: `nan` becomes `0`,
`±inf` becomes the largest/lowest finite double. -/
def np_nan_to_num_scalar : NpFloat → ℚ
  | .finite q => q
  | .posinf => floatMax
  | .neginf => -floatMax
  | .nan => 0

/-- `np.nan_to_num(np.divide(a, b))` elementwise on 1-D arrays. -/
def np_nan_to_num_divide (a b : Vec) : Vec :=
  List.zipWith (fun x y => np_nan_to_num_scalar (np_divide_scalar x y)) a b

/-- The `MessageType` enum of the source. -/
inductive MessageType
  | LAMBDA
  | PI
deriving DecidableEq

/-- Python exceptions raised by the source, by raise site:
`missingMessage` is the `ValueError` of
`validate_and_return_msgs_received_for_msg_type`; `unknownNeighbor`,
`typeError` and `shapeMismatch` are the three raises of
`_update_received_msg_by_key`; `preconditionNotMet` is the `ValueError` of
`compute_pi_msg_to_child`; `invalidLambdaMsgToParent` is the source's
exception class of the same name; `keyError` is Python's error for a dict
subscript with an absent key; `attributeError` is Python's error for
`None.any()`; `typeErrorNoneOp` is Python's error for subscripting `None`
or passing `None` to a numpy ufunc. -/
inductive Err
  | missingMessage (mt : MessageType)
  | unknownNeighbor (key : String)
  | typeError
  | shapeMismatch
  | preconditionNotMet
  | invalidLambdaMsgToParent
  | keyError (key : String)
  | attributeError
  | typeErrorNoneOp
  | notImplementedError
deriving DecidableEq

instance {ε α : Type} [DecidableEq ε] [DecidableEq α] :
    DecidableEq (Except ε α) := fun a b =>
  match a, b with
  | .ok x, .ok y => decidable_of_iff (x = y) (by simp)
  | .error x, .error y => decidable_of_iff (x = y) (by simp)
  | .ok _, .error _ => isFalse (by simp)
  | .error _, .ok _ => isFalse (by simp)

/-- A value passed to a message-update method: either a numpy 1-D array or
some other Python sequence (e.g. a plain list), which is not an
`np.ndarray`. -/
inductive PyObj
  | ndarray (v : Vec)
  | pylist (v : Vec)
deriving DecidableEq

/-- A received-message mailbox: a Python dict from neighbor label to an
optional message, in insertion order. -/
abbrev Mailbox := List (String × Option Vec)

/-- Python dict assignment `d[k] = v` for a key already present: the value
is replaced in place, order preserved. -/
def setKey (d : Mailbox) (k : String) (v : Option Vec) : Mailbox :=
  d.map (fun kv => if kv.1 = k then (kv.1, v) else kv)

/-- The keys of a mailbox, in order. -/
def mailboxKeys (d : Mailbox) : List String :=
  d.map Prod.fst

/-- The external CPD capability: an object exposing a dense probability
table `values` for the node's cardinality. -/
structure CPD where
  values : Vec
deriving DecidableEq

/-- The `Node` class state: label, neighbor sets, cardinality, CPD, both
aggregates (`None` until computed) and both received-message mailboxes. -/
structure Node where
  label_id : String
  children : List String
  parents : List String
  cardinality : Nat
  cpd : CPD
  pi_agg : Option Vec
  lambda_agg : Option Vec
  pi_received_msgs : Mailbox
  lambda_received_msgs : Mailbox
deriving DecidableEq

/-- `Node.__init__`: aggregates start as `None` and each mailbox maps every
declared neighbor to "not yet received". -/
def Node.init (label_id : String) (children parents : List String)
    (cardinality : Nat) (cpd : CPD) : Node :=
  { label_id := label_id
    children := children
    parents := parents
    cardinality := cardinality
    cpd := cpd
    pi_agg := none
    lambda_agg := none
    pi_received_msgs := parents.map (fun k => (k, none))
    lambda_received_msgs := children.map (fun k => (k, none)) }

/-- `Node._normalize`: divide a vector by its scalar sum. -/
def Node.normalize (value : Vec) : Vec :=
  value.map (fun x => x / value.sum)

/-- `Node.belief` property.  `self.pi_agg.any()` raises `AttributeError`
when `pi_agg` is `None`; by short-circuit of `and`, `lambda_agg` is only
inspected when `pi_agg` has a non-zero element. -/
def Node.belief (n : Node) : Except Err (Option Vec) :=
  match n.pi_agg with
  | none => .error .attributeError
  | some pa =>
    if np_any pa then
      match n.lambda_agg with
      | none => .error .attributeError
      | some la =>
        if np_any la then .ok (some (Node.normalize (np_multiply pa la)))
        else .ok none
    else .ok none

/-- `Node._return_msgs_received_for_msg_type`: the mailbox values for the
requested direction, in dict order. -/
def Node.return_msgs_received_for_msg_type (n : Node) (mt : MessageType) :
    List (Option Vec) :=
  match mt with
  | .LAMBDA => n.lambda_received_msgs.map Prod.snd
  | .PI => n.pi_received_msgs.map Prod.snd

/-- `Node.validate_and_return_msgs_received_for_msg_type`: raise if any
message of the requested direction is still `None`, else return them. -/
def Node.validate_and_return_msgs_received_for_msg_type (n : Node)
    (mt : MessageType) : Except Err (List Vec) :=
  let msg_values := n.return_msgs_received_for_msg_type mt
  if msg_values.any Option.isNone then .error (.missingMessage mt)
  else .ok (msg_values.filterMap id)

/-- `functools.reduce` with no initializer, as used on the (non-empty in
any reachable call) list of received messages; on `[]` Python would raise,
which no theorem below exercises. -/
def reduce1 (f : Vec → Vec → Vec) : List Vec → Vec
  | [] => []
  | h :: t => t.foldl f h

/-- `functools.reduce(lambda x, y: x*y, l)` with no initializer on a list
of scalars; on `[]` Python would raise, which no theorem below exercises. -/
def reduce1q : List ℚ → ℚ
  | [] => 1
  | h :: t => t.foldl (fun x y => x * y) h

/-- `Node.compute_pi_agg`: not implemented for the generic node. -/
def Node.compute_pi_agg (n : Node) : Except Err Vec × Node :=
  (.error .notImplementedError, n)

/-- `Node.compute_lambda_msg_to_parent`: not implemented for the generic
node. -/
def Node.compute_lambda_msg_to_parent (n : Node) (_parent_k : String) :
    Except Err Vec × Node :=
  (.error .notImplementedError, n)

/-- `Node.compute_lambda_agg`: with no children return the current
`lambda_agg` unchanged; otherwise validate that every child message
arrived, store their elementwise product as `lambda_agg`, and return it. -/
def Node.compute_lambda_agg (n : Node) : Except Err (Option Vec) × Node :=
  if n.children.isEmpty then (.ok n.lambda_agg, n)
  else
    match n.validate_and_return_msgs_received_for_msg_type .LAMBDA with
    | .error e => (.error e, n)
    | .ok lambda_msg_values =>
      let agg := reduce1 np_multiply lambda_msg_values
      (.ok (some agg), { n with lambda_agg := some agg })

/-- `Node._update_received_msg_by_key`: check the key, then the type, then
the shape, and only then assign into the dict. -/
def update_received_msg_by_key (cardinality : Nat) (received_msg_dict : Mailbox)
    (key : String) (new_value : PyObj) : Except Err Mailbox :=
  if (mailboxKeys received_msg_dict).contains key = false then
    .error (.unknownNeighbor key)
  else
    match new_value with
    | .pylist _ => .error .typeError
    | .ndarray v =>
      if v.length ≠ cardinality then .error .shapeMismatch
      else .ok (setKey received_msg_dict key (some v))

/-- `Node.update_pi_msg_from_parent`. -/
def Node.update_pi_msg_from_parent (n : Node) (parent : String)
    (new_value : PyObj) : Except Err Unit × Node :=
  match update_received_msg_by_key n.cardinality n.pi_received_msgs parent new_value with
  | .error e => (.error e, n)
  | .ok d => (.ok (), { n with pi_received_msgs := d })

/-- `Node.update_lambda_msg_from_child`. -/
def Node.update_lambda_msg_from_child (n : Node) (child : String)
    (new_value : PyObj) : Except Err Unit × Node :=
  match update_received_msg_by_key n.cardinality n.lambda_received_msgs child new_value with
  | .error e => (.error e, n)
  | .ok d => (.ok (), { n with lambda_received_msgs := d })

/-- `Node.compute_pi_msg_to_child`: subscript the lambda mailbox (Python
`KeyError` on an absent key), raise when the message is still `None`, else
return `normalize(nan_to_num(divide(belief, msg)))`; the `belief` property
may itself raise, and `np.divide(None, msg)` raises a `TypeError` when the
belief is `None`. -/
def Node.compute_pi_msg_to_child (n : Node) (child_k : String) :
    Except Err Vec :=
  match n.lambda_received_msgs.lookup child_k with
  | none => .error (.keyError child_k)
  | some none => .error .preconditionNotMet
  | some (some lambda_msg_from_child) =>
    match n.belief with
    | .error e => .error e
    | .ok none => .error .typeErrorNoneOp
    | .ok (some b) =>
      .ok (Node.normalize (np_nan_to_num_divide b lambda_msg_from_child))

/-- `Node.is_fully_initialized` property. -/
def Node.is_fully_init (n : Node) : Bool :=
  !(n.lambda_received_msgs.map Prod.snd).any Option.isNone &&
  !(n.pi_received_msgs.map Prod.snd).any Option.isNone &&
  !n.pi_agg.isNone && !n.lambda_agg.isNone

/-- `BernoulliOrNode.compute_pi_agg`: with no parents store the CPD's own
values; otherwise validate all parent pi messages, multiply their
0-components into `p_0` and store `[p_0, 1 - p_0]`. -/
def BernoulliOrNode.compute_pi_agg (n : Node) : Except Err Vec × Node :=
  if n.parents.isEmpty then
    (.ok n.cpd.values, { n with pi_agg := some n.cpd.values })
  else
    match n.validate_and_return_msgs_received_for_msg_type .PI with
    | .error e => (.error e, n)
    | .ok pi_msg_values =>
      let parents_p0 := pi_msg_values.map (fun p => p.headD 0)
      let p_0 := reduce1q parents_p0
      let p_1 := 1 - p_0
      let agg : Vec := [p_0, p_1]
      (.ok agg, { n with pi_agg := some agg })

/-- `BernoulliOrNode.compute_lambda_msg_to_parent`: fast path when
`lambda_agg` equals the all-ones vector (note `np.array_equal(None, ones)`
is `False`, so a `None` `lambda_agg` falls to the general path); otherwise
validate all parent pi messages first, take the product of the
0-components of every parent message except `parent_k` (with initializer
`1`), build the candidate `[lambda_0, lambda_1]`, raise when both are
zero, else return it normalized.  Subscripting a `None` `lambda_agg`
raises a `TypeError`. -/
def BernoulliOrNode.compute_lambda_msg_to_parent (n : Node) (parent_k : String) :
    Except Err Vec × Node :=
  let ones : Vec := List.replicate n.cardinality 1
  if n.lambda_agg = some ones then (.ok ones, n)
  else
    match n.validate_and_return_msgs_received_for_msg_type .PI with
    | .error e => (.error e, n)
    | .ok _ =>
      match n.lambda_agg with
      | none => (.error .typeErrorNoneOp, n)
      | some la =>
        let p0_excluding_k :=
          (n.pi_received_msgs.filter (fun kv => kv.1 ≠ parent_k)).map
            (fun kv => (kv.2.getD []).headD 0)
        let p0_product := p0_excluding_k.foldl (fun x y => x * y) 1
        let lambda_0 := la.getD 1 0 + (la.getD 0 0 - la.getD 1 0) * p0_product
        let lambda_1 := la.getD 1 0
        let lambda_msg : Vec := [lambda_0, lambda_1]
        if lambda_0 = 0 ∧ lambda_1 = 0 then (.error .invalidLambdaMsgToParent, n)
        else (.ok (Node.normalize lambda_msg), n)

/-- The `BeliefUpdateNodeModel` state: the owned dict from node label to
node. -/
structure Model where
  nodes_dict : List (String × Node)
deriving DecidableEq

/-- Modelled from the spec: `BayesianModel.get_roots` is code of this
repository outside `src/` (`beliefs/models/base_models.py`); the spec's
graph capability answers "roots (no incoming edges)", and the edge set is
derived as one edge `(parent, node)` per declared parent, so the roots are
exactly the nodes with an empty parent set. -/
def Model.get_roots (m : Model) : List String :=
  (m.nodes_dict.filter (fun kv => kv.2.parents.isEmpty)).map Prod.fst

/-- Modelled from the spec: `BayesianModel.get_leaves` is code of this
repository outside `src/`; the leaves (no outgoing edges) are exactly the
nodes with an empty child set. -/
def Model.get_leaves (m : Model) : List String :=
  (m.nodes_dict.filter (fun kv => kv.2.children.isEmpty)).map Prod.fst

/-- Apply `f` to the node stored under `k` (Python
`self.nodes_dict[k].attr = ...`). -/
def updNode (d : List (String × Node)) (k : String) (f : Node → Node) :
    List (String × Node) :=
  d.map (fun kv => if kv.1 = k then (kv.1, f kv.2) else kv)

/-- `BeliefUpdateNodeModel.set_boundary_conditions`: loop over the roots
setting `pi_agg` to the CPD values, then over the leaves setting
`lambda_agg` to `np.ones([cardinality])`. -/
def Model.set_boundary_conditions (m : Model) : Model :=
  let d1 := m.get_roots.foldl
    (fun d r => updNode d r (fun n => { n with pi_agg := some n.cpd.values })) m.nodes_dict
  let d2 := m.get_leaves.foldl
    (fun d l => updNode d l
      (fun n => { n with lambda_agg := some (List.replicate n.cardinality 1) })) d1
  { nodes_dict := d2 }

/-! Concrete node and model instances used by the witness theorems. -/

/-- Scenario B of the spec: a Bernoulli-OR node with two parents whose pi
messages are `[0.4, 0.6]` and `[0.5, 0.5]`. -/
def nodeB : Node :=
  { label_id := "y", children := [], parents := ["a", "b"],
    cardinality := 2, cpd := ⟨[1, 0]⟩, pi_agg := none, lambda_agg := none,
    pi_received_msgs := [("a", some [2/5, 3/5]), ("b", some [1/2, 1/2])],
    lambda_received_msgs := [] }

/-- For C4's witness: a Bernoulli-OR leaf with `lambda_agg = [1, 1]` whose
single parent's pi-message slot is still unset. -/
def nodeC4 : Node :=
  { label_id := "y", children := [], parents := ["a"],
    cardinality := 2, cpd := ⟨[1, 0]⟩, pi_agg := none,
    lambda_agg := some [1, 1],
    pi_received_msgs := [("a", none)], lambda_received_msgs := [] }

/-- For C3's witness: a Bernoulli-OR node with two parents, all pi messages
present, and evidence `lambda_agg = [1, 0]`. -/
def nodeC3 : Node :=
  { label_id := "y", children := ["c"], parents := ["a", "b"],
    cardinality := 2, cpd := ⟨[1, 0]⟩, pi_agg := none,
    lambda_agg := some [1, 0],
    pi_received_msgs := [("a", some [2/5, 3/5]), ("b", some [1/2, 1/2])],
    lambda_received_msgs := [("c", some [1, 0])] }

/-- For C5's witness: a node with two children whose lambda messages are
both present. -/
def nodeC5 : Node :=
  { label_id := "x", children := ["c", "d"], parents := [],
    cardinality := 2, cpd := ⟨[1, 0]⟩, pi_agg := none, lambda_agg := none,
    pi_received_msgs := [],
    lambda_received_msgs := [("c", some [2, 3]), ("d", some [4, 5])] }

/-- For C5's witness: the same node with the children's mailbox order
swapped. -/
def nodeC5p : Node :=
  { nodeC5 with
    lambda_received_msgs := [("d", some [4, 5]), ("c", some [2, 3])] }

/-- For C6's witness: a cardinality-2 node with one parent `a` and one
child `c`, both slots unset. -/
def nodeC6 : Node :=
  { label_id := "x", children := ["c"], parents := ["a"],
    cardinality := 2, cpd := ⟨[1, 0]⟩, pi_agg := none, lambda_agg := none,
    pi_received_msgs := [("a", none)], lambda_received_msgs := [("c", none)] }

/-- For C9's witness: a node with one parent and one child, both message
slots unset. -/
def nodeC9 : Node :=
  { label_id := "x", children := ["c"], parents := ["a"],
    cardinality := 2, cpd := ⟨[1, 0]⟩, pi_agg := none, lambda_agg := none,
    pi_received_msgs := [("a", none)], lambda_received_msgs := [("c", none)] }

/-- For C1's counterexample: a node whose `pi_agg` is still `None` but
whose `lambda_agg` is set. -/
def nodeC1cex : Node :=
  { label_id := "x", children := [], parents := [],
    cardinality := 2, cpd := ⟨[1, 0]⟩, pi_agg := none,
    lambda_agg := some [1, 1],
    pi_received_msgs := [], lambda_received_msgs := [] }

/-- For C1's witness: a node with both aggregates set and non-degenerate. -/
def nodeC1w : Node :=
  { label_id := "x", children := [], parents := [],
    cardinality := 2, cpd := ⟨[1, 0]⟩, pi_agg := some [1/2, 1/2],
    lambda_agg := some [1, 1],
    pi_received_msgs := [], lambda_received_msgs := [] }

/-- The spec's own words, for comparison with the source's
`np.nan_to_num(np.divide(a, b))`: "safe-divide-with-zero-policy(a, b):
elementwise `a / b`, with the convention `0/0 := 0`, and any other division
producing a non-finite result mapped to `0`" — so every division by zero
yields 0. -/
def safe_divide_spec (a b : Vec) : Vec :=
  List.zipWith (fun x y => if y = 0 then 0 else x / y) a b

/-- For C7's counterexample: a node whose belief is `[0.5, 0.5]` and whose
child `c` deposited the lambda message `[1, 0]` (zero second component). -/
def nodeC7cex : Node :=
  { label_id := "x", children := ["c"], parents := [],
    cardinality := 2, cpd := ⟨[1, 0]⟩, pi_agg := some [1/2, 1/2],
    lambda_agg := some [1, 1],
    pi_received_msgs := [], lambda_received_msgs := [("c", some [1, 0])] }

/-- For C7's witness: the same belief with an all-ones child message. -/
def nodeC7w : Node :=
  { label_id := "x", children := ["c"], parents := [],
    cardinality := 2, cpd := ⟨[1, 0]⟩, pi_agg := some [1/2, 1/2],
    lambda_agg := some [1, 1],
    pi_received_msgs := [], lambda_received_msgs := [("c", some [1, 1])] }

/-- For C8's witness: a two-node model, a root `r` with child `l` and a
leaf `l` with parent `r`. -/
def nodeC8r : Node :=
  { label_id := "r", children := ["l"], parents := [],
    cardinality := 2, cpd := ⟨[7/10, 3/10]⟩, pi_agg := none, lambda_agg := none,
    pi_received_msgs := [], lambda_received_msgs := [("l", none)] }

/-- For C8's witness: the leaf node. -/
def nodeC8l : Node :=
  { label_id := "l", children := [], parents := ["r"],
    cardinality := 2, cpd := ⟨[1, 0]⟩, pi_agg := none, lambda_agg := none,
    pi_received_msgs := [("r", none)], lambda_received_msgs := [] }

/-- For C8's witness: the model owning the two nodes. -/
def modelC8 : Model :=
  { nodes_dict := [("r", nodeC8r), ("l", nodeC8l)] }

/-! ## Theorems -/

theorem foldl_mul_eq (t : List ℚ) :
    ∀ a : ℚ, t.foldl (fun x y => x * y) a = a * t.prod := by
  induction t with
  | nil => simp
  | cons h t ih => intro a; simp [List.prod_cons, ih, mul_assoc]

theorem reduce1q_eq_prod (l : List ℚ) : reduce1q l = l.prod := by
  cases l with
  | nil => rfl
  | cons h t =>
    show t.foldl (fun x y => x * y) h = (h :: t).prod
    rw [foldl_mul_eq, List.prod_cons]

/-- Claim C2: `BernoulliOrNode.compute_pi_agg` stores the CPD's own values
when the node has no parents; otherwise it raises `MissingMessage` when a
parent pi message is absent, and with all messages present it stores and
returns `[p0, 1 - p0]` where `p0` is the product of the parents' pi-message
0-components. -/
theorem C2_compute_pi_agg (n : Node) :
    (n.parents = [] →
      BernoulliOrNode.compute_pi_agg n =
        (.ok n.cpd.values, { n with pi_agg := some n.cpd.values })) ∧
    (n.parents ≠ [] →
      (((n.pi_received_msgs.map Prod.snd).any Option.isNone = true →
        BernoulliOrNode.compute_pi_agg n = (.error (.missingMessage .PI), n)) ∧
      (∀ msgs : List Vec,
        n.pi_received_msgs.map Prod.snd = msgs.map some →
        BernoulliOrNode.compute_pi_agg n =
          (.ok [(msgs.map (fun p => p.headD 0)).prod,
                1 - (msgs.map (fun p => p.headD 0)).prod],
           { n with pi_agg := some [(msgs.map (fun p => p.headD 0)).prod,
                                    1 - (msgs.map (fun p => p.headD 0)).prod] })))) := by
  refine ⟨fun hp => ?_, fun hp => ⟨fun hmiss => ?_, fun msgs hmsgs => ?_⟩⟩
  · simp [BernoulliOrNode.compute_pi_agg, hp]
  · simp only [BernoulliOrNode.compute_pi_agg, List.isEmpty_iff, hp, if_false,
      Node.validate_and_return_msgs_received_for_msg_type,
      Node.return_msgs_received_for_msg_type]
    simp [hmiss]
  · simp only [BernoulliOrNode.compute_pi_agg, List.isEmpty_iff, hp, if_false,
      Node.validate_and_return_msgs_received_for_msg_type,
      Node.return_msgs_received_for_msg_type, hmsgs]
    simp [reduce1q_eq_prod, List.map_map, Function.comp]

/-- Witness for C2, scenario B of the spec: with parent pi messages
`[0.4, 0.6]` and `[0.5, 0.5]`, `compute_pi_agg` returns `[0.2, 0.8]`. -/
theorem C2_compute_pi_agg_witness :
    (BernoulliOrNode.compute_pi_agg nodeB).1 = .ok [1/5, 4/5] := by
  have h := ((C2_compute_pi_agg nodeB).2 (by simp [nodeB])).2
    [[2/5, 3/5], [1/2, 1/2]] (by simp [nodeB])
  rw [h]
  norm_num

/-- Claim C4: when `lambda_agg` equals the all-ones vector,
`compute_lambda_msg_to_parent` returns the all-ones vector for every
`parent_k`, without inspecting any received pi message, and leaves the node
unchanged. -/
theorem C4_lambda_msg_fast_path (n : Node) (parent_k : String)
    (h : n.lambda_agg = some (List.replicate n.cardinality 1)) :
    BernoulliOrNode.compute_lambda_msg_to_parent n parent_k =
      (.ok (List.replicate n.cardinality 1), n) := by
  simp [BernoulliOrNode.compute_lambda_msg_to_parent, h]

/-- Witness for C4, scenario C of the spec: a leaf with `lambda_agg` equal
to `[1, 1]` and an unset parent pi-message slot still gets `[1, 1]` back. -/
theorem C4_lambda_msg_fast_path_witness :
    BernoulliOrNode.compute_lambda_msg_to_parent nodeC4 "a" =
      (.ok [1, 1], nodeC4) := by
  have h := C4_lambda_msg_fast_path nodeC4 "a" (by simp [nodeC4, List.replicate])
  rw [h]
  simp [nodeC4, List.replicate]

/-- Claim C3: for a Bernoulli-OR node whose `lambda_agg` is present and not
the all-ones vector, `compute_lambda_msg_to_parent` first raises
`MissingMessage` when any parent pi message is absent; with all present it
builds the candidate `[lambda_0, lambda_1]` with `lambda_1 = lambda_agg[1]`
and `lambda_0 = lambda_agg[1] + (lambda_agg[0] - lambda_agg[1]) * p0`,
where `p0` is the product of the 0-components of the pi messages of every
parent other than `parent_k`; it raises `InvalidLambdaMessage` exactly when
both candidate components are zero and otherwise returns the normalized
candidate, never mutating the node. -/
theorem C3_lambda_msg_general_path (n : Node) (parent_k : String) (la : Vec)
    (_hcard : n.cardinality = 2) (hla : n.lambda_agg = some la)
    (hlen : la.length = 2) (hne : la ≠ List.replicate n.cardinality 1) :
    (((n.pi_received_msgs.map Prod.snd).any Option.isNone = true →
      BernoulliOrNode.compute_lambda_msg_to_parent n parent_k =
        (.error (.missingMessage .PI), n)) ∧
    ((n.pi_received_msgs.map Prod.snd).any Option.isNone = false →
      ∀ p0 lambda_0 lambda_1 : ℚ,
      p0 = ((n.pi_received_msgs.filter (fun kv => kv.1 ≠ parent_k)).map
              (fun kv => (kv.2.getD []).headD 0)).prod →
      lambda_0 = la.getD 1 0 + (la.getD 0 0 - la.getD 1 0) * p0 →
      lambda_1 = la.getD 1 0 →
      ((lambda_0 = 0 ∧ lambda_1 = 0 →
        BernoulliOrNode.compute_lambda_msg_to_parent n parent_k =
          (.error .invalidLambdaMsgToParent, n)) ∧
      (¬(lambda_0 = 0 ∧ lambda_1 = 0) →
        BernoulliOrNode.compute_lambda_msg_to_parent n parent_k =
          (.ok (Node.normalize [lambda_0, lambda_1]), n))))) := by
  have hcond : ¬(n.lambda_agg = some (List.replicate n.cardinality 1)) := by
    rw [hla]
    intro hcontra
    exact hne (Option.some.injEq _ _ ▸ hcontra)
  obtain ⟨x, y, rfl⟩ : ∃ x y : ℚ, la = [x, y] := by
    match la, hlen with
    | [x, y], _ => exact ⟨x, y, rfl⟩
  constructor
  · intro hmiss
    simp only [BernoulliOrNode.compute_lambda_msg_to_parent, if_neg hcond,
      Node.validate_and_return_msgs_received_for_msg_type,
      Node.return_msgs_received_for_msg_type]
    simp [hmiss]
  · intro hall p0 lambda_0 lambda_1 hp0 hl0 hl1
    have hprod :
        ((n.pi_received_msgs.filter (fun kv => kv.1 ≠ parent_k)).map
          (fun kv => (kv.2.getD []).headD 0)).foldl (fun x y => x * y) 1 = p0 := by
      rw [foldl_mul_eq, one_mul, hp0]
    have hg0 : List.getD [x, y] 0 0 = x := rfl
    have hg1 : List.getD [x, y] 1 0 = y := rfl
    rw [hg0, hg1] at hl0
    rw [hg1] at hl1
    constructor
    · intro hzero
      simp only [BernoulliOrNode.compute_lambda_msg_to_parent, if_neg hcond,
        Node.validate_and_return_msgs_received_for_msg_type,
        Node.return_msgs_received_for_msg_type]
      simp only [hall, Bool.false_eq_true, if_false, hla, hprod, hg0, hg1]
      rw [if_pos]
      rw [← hl0, ← hl1]
      exact hzero
    · intro hnz
      simp only [BernoulliOrNode.compute_lambda_msg_to_parent, if_neg hcond,
        Node.validate_and_return_msgs_received_for_msg_type,
        Node.return_msgs_received_for_msg_type]
      simp only [hall, Bool.false_eq_true, if_false, hla, hprod, hg0, hg1]
      rw [if_neg, hl0, hl1]
      rw [← hl0, ← hl1]
      exact hnz

/-- Witness for C3: with parent pi messages `[0.4, 0.6]`, `[0.5, 0.5]` and
`lambda_agg = [1, 0]`, the lambda message to parent `a` is the normalized
candidate `[1, 0]`. -/
theorem C3_lambda_msg_general_path_witness :
    BernoulliOrNode.compute_lambda_msg_to_parent nodeC3 "a" =
      (.ok [1, 0], nodeC3) := by
  have h := ((C3_lambda_msg_general_path nodeC3 "a" [1, 0] (by simp [nodeC3])
      (by simp [nodeC3]) (by simp [nodeC3])
      (by simp [nodeC3, List.replicate])).2
      (by simp [nodeC3]) (1/2) (1/2) 0
      (by simp [nodeC3]) (by norm_num) (by norm_num)).2
      (by norm_num)
  rw [h]
  have : Node.normalize [1/2, 0] = [1, 0] := by
    simp [Node.normalize]
  rw [this]

theorem np_multiply_right_comm (b x y : Vec) :
    np_multiply (np_multiply b x) y = np_multiply (np_multiply b y) x := by
  induction b generalizing x y with
  | nil => simp [np_multiply]
  | cons hb tb ih =>
    cases x with
    | nil => simp [np_multiply]
    | cons hx tx =>
      cases y with
      | nil => simp [np_multiply]
      | cons hy ty =>
        simp only [np_multiply, List.zipWith_cons_cons, List.cons.injEq] at ih ⊢
        refine ⟨by ring, ih tx ty⟩

instance : RightCommutative np_multiply where
  right_comm := np_multiply_right_comm

theorem perm_any {α : Type} (p : α → Bool) {l₁ l₂ : List α} (h : l₁.Perm l₂) :
    l₁.any p = l₂.any p := by
  cases hb : l₂.any p with
  | true =>
    rw [List.any_eq_true] at hb ⊢
    obtain ⟨x, hx, hpx⟩ := hb
    exact ⟨x, h.mem_iff.mpr hx, hpx⟩
  | false =>
    rw [List.any_eq_false] at hb ⊢
    intro x hx
    exact hb x (h.mem_iff.mp hx)

theorem np_multiply_ones (c : Nat) (v : Vec) (h : v.length = c) :
    np_multiply (List.replicate c 1) v = v := by
  induction v generalizing c with
  | nil => simp [np_multiply]
  | cons hv tv ih =>
    cases c with
    | zero => simp at h
    | succ c =>
      simp only [List.replicate, np_multiply, List.zipWith_cons_cons, one_mul]
      have := ih c (by simpa using h)
      simp only [np_multiply] at this
      rw [this]

theorem reduce1_np_multiply_eq_foldl (c : Nat) (l : List Vec) (hne : l ≠ [])
    (hlen : ∀ v ∈ l, v.length = c) :
    reduce1 np_multiply l = l.foldl np_multiply (List.replicate c 1) := by
  cases l with
  | nil => exact absurd rfl hne
  | cons h t =>
    show t.foldl np_multiply h = (h :: t).foldl np_multiply (List.replicate c 1)
    rw [List.foldl_cons, np_multiply_ones c h (hlen h (by simp))]

theorem np_multiply_length (a b : Vec) :
    (np_multiply a b).length = min a.length b.length := by
  simp [np_multiply]

theorem np_multiply_getD (a b : Vec) (i : Nat) (hia : i < a.length)
    (hib : i < b.length) :
    (np_multiply a b).getD i 0 = a.getD i 0 * b.getD i 0 := by
  induction a generalizing b i with
  | nil => simp at hia
  | cons ha ta ih =>
    cases b with
    | nil => simp at hib
    | cons hb tb =>
      cases i with
      | zero => simp [np_multiply]
      | succ i =>
        simp only [np_multiply, List.zipWith_cons_cons, List.getD_cons_succ]
        exact ih tb i (by simpa using hia) (by simpa using hib)

theorem foldl_np_multiply_spec (c : Nat) (t : List Vec) :
    ∀ acc : Vec, acc.length = c → (∀ v ∈ t, v.length = c) →
    (t.foldl np_multiply acc).length = c ∧
    ∀ i < c, (t.foldl np_multiply acc).getD i 0 =
      acc.getD i 0 * (t.map (fun v => v.getD i 0)).prod := by
  induction t with
  | nil => intro acc hacc _; simp [hacc]
  | cons h t ih =>
    intro acc hacc hlen
    have hh : h.length = c := hlen h (by simp)
    have hacc' : (np_multiply acc h).length = c := by
      rw [np_multiply_length, hacc, hh, Nat.min_self]
    have hrest := ih (np_multiply acc h) hacc' (fun v hv => hlen v (by simp [hv]))
    refine ⟨hrest.1, fun i hi => ?_⟩
    rw [List.foldl_cons, hrest.2 i hi,
      np_multiply_getD acc h i (by rw [hacc]; exact hi) (by rw [hh]; exact hi)]
    simp [List.prod_cons, mul_assoc]

theorem reduce1_np_multiply_perm (c : Nat) (l₁ l₂ : List Vec)
    (hp : l₁.Perm l₂) (hlen : ∀ v ∈ l₁, v.length = c) :
    reduce1 np_multiply l₁ = reduce1 np_multiply l₂ := by
  cases hna : l₁ with
  | nil =>
    have : l₂ = [] := by
      subst hna
      exact hp.symm.eq_nil
    rw [this]
  | cons h t =>
    subst hna
    have hne₂ : l₂ ≠ [] := by
      intro hcontra
      subst hcontra
      exact absurd hp.eq_nil (by simp)
    have hlen₂ : ∀ v ∈ l₂, v.length = c := fun v hv => hlen v (hp.mem_iff.mpr hv)
    rw [reduce1_np_multiply_eq_foldl c (h :: t) (by simp) hlen,
      reduce1_np_multiply_eq_foldl c l₂ hne₂ hlen₂]
    exact hp.foldl_eq _

/-- Claim C5: `compute_lambda_agg` on a childless node returns the current
`lambda_agg` with no state change; on a node with children it raises
`MissingMessage` exactly when some child lambda slot is unset, and with all
slots set it stores and returns the elementwise product of the received
child lambda messages (pointwise the product of the children's components),
a value invariant under any permutation of the children's mailbox. -/
theorem C5_compute_lambda_agg :
    (∀ n : Node, n.children = [] →
      n.compute_lambda_agg = (.ok n.lambda_agg, n)) ∧
    (∀ n : Node, n.children ≠ [] →
      (((n.lambda_received_msgs.map Prod.snd).any Option.isNone = true →
        n.compute_lambda_agg = (.error (.missingMessage .LAMBDA), n)) ∧
      ((n.lambda_received_msgs.map Prod.snd).any Option.isNone = false →
        ∀ e : Err, n.compute_lambda_agg.1 ≠ .error e))) ∧
    (∀ (n : Node) (msgs : List Vec) (c : Nat), n.children ≠ [] →
      n.lambda_received_msgs.map Prod.snd = msgs.map some → msgs ≠ [] →
      (∀ v ∈ msgs, v.length = c) →
      (n.compute_lambda_agg =
        (.ok (some (reduce1 np_multiply msgs)),
         { n with lambda_agg := some (reduce1 np_multiply msgs) }) ∧
      (reduce1 np_multiply msgs).length = c ∧
      ∀ i < c, (reduce1 np_multiply msgs).getD i 0 =
        (msgs.map (fun v => v.getD i 0)).prod)) ∧
    (∀ (n₁ n₂ : Node) (c : Nat), n₁.children ≠ [] → n₂.children ≠ [] →
      n₁.lambda_received_msgs.Perm n₂.lambda_received_msgs →
      (∀ kv ∈ n₁.lambda_received_msgs, ∀ v : Vec, kv.2 = some v → v.length = c) →
      n₁.compute_lambda_agg.1 = n₂.compute_lambda_agg.1) := by
  have hmain : ∀ n : Node, n.children ≠ [] →
      (((n.lambda_received_msgs.map Prod.snd).any Option.isNone = true →
        n.compute_lambda_agg = (.error (.missingMessage .LAMBDA), n)) ∧
      ((n.lambda_received_msgs.map Prod.snd).any Option.isNone = false →
        n.compute_lambda_agg =
          (.ok (some (reduce1 np_multiply
              ((n.lambda_received_msgs.map Prod.snd).filterMap id))),
           { n with lambda_agg := some (reduce1 np_multiply
              ((n.lambda_received_msgs.map Prod.snd).filterMap id)) }))) := by
    intro n hc
    constructor
    · intro hmiss
      simp only [Node.compute_lambda_agg, List.isEmpty_iff, hc, if_false,
        Node.validate_and_return_msgs_received_for_msg_type,
        Node.return_msgs_received_for_msg_type]
      simp [hmiss]
    · intro hall
      simp only [Node.compute_lambda_agg, List.isEmpty_iff, hc, if_false,
        Node.validate_and_return_msgs_received_for_msg_type,
        Node.return_msgs_received_for_msg_type]
      simp [hall]
  refine ⟨fun n hc => ?_, fun n hc => ⟨(hmain n hc).1, fun hall e => ?_⟩,
    fun n msgs c hc hmsgs hne hlen => ?_, fun n₁ n₂ c hc₁ hc₂ hp hlen => ?_⟩
  · simp [Node.compute_lambda_agg, hc]
  · rw [(hmain n hc).2 hall]
    simp
  · have hall : (n.lambda_received_msgs.map Prod.snd).any Option.isNone = false := by
      rw [hmsgs]
      simp
    have hfm : (n.lambda_received_msgs.map Prod.snd).filterMap id = msgs := by
      rw [hmsgs]
      simp
    refine ⟨by rw [(hmain n hc).2 hall, hfm], ?_, ?_⟩
    · rw [reduce1_np_multiply_eq_foldl c msgs hne hlen]
      exact (foldl_np_multiply_spec c msgs (List.replicate c 1) (by simp) hlen).1
    · intro i hi
      rw [reduce1_np_multiply_eq_foldl c msgs hne hlen,
        (foldl_np_multiply_spec c msgs (List.replicate c 1) (by simp) hlen).2 i hi]
      simp [hi]
  · have hvp : (n₁.lambda_received_msgs.map Prod.snd).Perm
        (n₂.lambda_received_msgs.map Prod.snd) := hp.map Prod.snd
    by_cases hmiss : (n₁.lambda_received_msgs.map Prod.snd).any Option.isNone = true
    · have hmiss₂ : (n₂.lambda_received_msgs.map Prod.snd).any Option.isNone = true := by
        rw [← perm_any Option.isNone hvp]
        exact hmiss
      rw [(hmain n₁ hc₁).1 hmiss, (hmain n₂ hc₂).1 hmiss₂]
    · have hall₁ : (n₁.lambda_received_msgs.map Prod.snd).any Option.isNone = false :=
        Bool.not_eq_true _ ▸ eq_false_of_ne_true hmiss
      have hall₂ : (n₂.lambda_received_msgs.map Prod.snd).any Option.isNone = false := by
        rw [← perm_any Option.isNone hvp]
        exact hall₁
      rw [(hmain n₁ hc₁).2 hall₁, (hmain n₂ hc₂).2 hall₂]
      have hfp : ((n₁.lambda_received_msgs.map Prod.snd).filterMap id).Perm
          ((n₂.lambda_received_msgs.map Prod.snd).filterMap id) := hvp.filterMap id
      have hflen : ∀ v ∈ (n₁.lambda_received_msgs.map Prod.snd).filterMap id,
          v.length = c := by
        intro v hv
        rw [List.mem_filterMap] at hv
        obtain ⟨ov, hov, hid⟩ := hv
        rw [List.mem_map] at hov
        obtain ⟨kv, hkv, hsnd⟩ := hov
        exact hlen kv hkv v (by rw [hsnd]; exact hid)
      simp only [reduce1_np_multiply_perm c _ _ hfp hflen]

/-- Witness for C5: with child lambda messages `[2, 3]` and `[4, 5]`,
`compute_lambda_agg` stores and returns `[8, 15]`, also when the mailbox
order is swapped. -/
theorem C5_compute_lambda_agg_witness :
    nodeC5.compute_lambda_agg =
      (.ok (some [8, 15]), { nodeC5 with lambda_agg := some [8, 15] }) ∧
    nodeC5.compute_lambda_agg.1 = nodeC5p.compute_lambda_agg.1 := by
  have h := (C5_compute_lambda_agg.2.2.1 nodeC5 [[2, 3], [4, 5]] 2
    (by simp [nodeC5]) (by simp [nodeC5]) (by simp)
    (by intro v hv; simp at hv; rcases hv with h | h <;> simp [h])).1
  have hperm := C5_compute_lambda_agg.2.2.2 nodeC5 nodeC5p 2
    (by simp [nodeC5]) (by simp [nodeC5p, nodeC5])
    (by simp [nodeC5, nodeC5p]; exact List.Perm.swap _ _ _)
    (by intro kv hkv v hv; simp [nodeC5] at hkv
        rcases hkv with h | h <;> (subst h; simp at hv; subst hv; simp))
  have hred : reduce1 np_multiply [[2, 3], [4, 5]] = [8, 15] := by
    norm_num [reduce1, np_multiply]
  rw [hred] at h
  exact ⟨h, hperm⟩

theorem lookup_setKey (d : Mailbox) (k : String) (v : Option Vec)
    (h : (mailboxKeys d).contains k = true) :
    (setKey d k v).lookup k = some v := by
  induction d with
  | nil => simp [mailboxKeys] at h
  | cons hd tl ih =>
    obtain ⟨k1, v1⟩ := hd
    simp only [setKey, List.map_cons]
    by_cases hk : k1 = k
    · subst hk
      rw [if_pos rfl]
      simp [List.lookup]
    · rw [if_neg (by simp [hk])]
      have h' : (mailboxKeys tl).contains k = true := by
        simp [mailboxKeys] at h ⊢
        tauto
      have hk' : (k == k1) = false := by
        simp only [beq_eq_false_iff_ne, ne_eq]
        exact fun hcontra => hk hcontra.symm
      simp only [List.lookup, hk']
      simpa [setKey] using ih h'

/-- Claim C6: both message-deposit operations reject an undeclared neighbor
id with `UnknownNeighbor`, a non-array value with `TypeMismatch`, and an
array whose length differs from the cardinality with `ShapeMismatch`,
leaving the node (hence every mailbox slot) unchanged in each case; on
success the new vector is written over the slot for that neighbor. -/
theorem C6_update_msg_contract (n : Node) (key : String)
    (hp : mailboxKeys n.pi_received_msgs = n.parents)
    (hc : mailboxKeys n.lambda_received_msgs = n.children) :
    ((n.parents.contains key = false →
      ∀ v : PyObj, n.update_pi_msg_from_parent key v =
        (.error (.unknownNeighbor key), n)) ∧
     (n.parents.contains key = true →
      (∀ w : Vec, n.update_pi_msg_from_parent key (.pylist w) =
        (.error .typeError, n)) ∧
      (∀ w : Vec, w.length ≠ n.cardinality →
        n.update_pi_msg_from_parent key (.ndarray w) =
          (.error .shapeMismatch, n)) ∧
      (∀ w : Vec, w.length = n.cardinality →
        n.update_pi_msg_from_parent key (.ndarray w) =
          (.ok (), { n with
            pi_received_msgs := setKey n.pi_received_msgs key (some w) }) ∧
        (setKey n.pi_received_msgs key (some w)).lookup key = some (some w)))) ∧
    ((n.children.contains key = false →
      ∀ v : PyObj, n.update_lambda_msg_from_child key v =
        (.error (.unknownNeighbor key), n)) ∧
     (n.children.contains key = true →
      (∀ w : Vec, n.update_lambda_msg_from_child key (.pylist w) =
        (.error .typeError, n)) ∧
      (∀ w : Vec, w.length ≠ n.cardinality →
        n.update_lambda_msg_from_child key (.ndarray w) =
          (.error .shapeMismatch, n)) ∧
      (∀ w : Vec, w.length = n.cardinality →
        n.update_lambda_msg_from_child key (.ndarray w) =
          (.ok (), { n with
            lambda_received_msgs := setKey n.lambda_received_msgs key (some w) }) ∧
        (setKey n.lambda_received_msgs key (some w)).lookup key =
          some (some w)))) := by
  constructor
  · constructor
    · intro hkey v
      have hkm : key ∉ n.parents := by simpa using hkey
      simp [Node.update_pi_msg_from_parent, update_received_msg_by_key, hp, hkm]
    · intro hkey
      have hkm : key ∈ n.parents := by simpa using hkey
      refine ⟨fun w => ?_, fun w hw => ?_, fun w hw => ⟨?_, ?_⟩⟩
      · simp [Node.update_pi_msg_from_parent, update_received_msg_by_key, hp, hkm]
      · simp [Node.update_pi_msg_from_parent, update_received_msg_by_key, hp, hkm, hw]
      · simp [Node.update_pi_msg_from_parent, update_received_msg_by_key, hp, hkm, hw]
      · exact lookup_setKey _ _ _ (by rw [hp]; exact hkey)
  · constructor
    · intro hkey v
      have hkm : key ∉ n.children := by simpa using hkey
      simp [Node.update_lambda_msg_from_child, update_received_msg_by_key, hc, hkm]
    · intro hkey
      have hkm : key ∈ n.children := by simpa using hkey
      refine ⟨fun w => ?_, fun w hw => ?_, fun w hw => ⟨?_, ?_⟩⟩
      · simp [Node.update_lambda_msg_from_child, update_received_msg_by_key, hc, hkm]
      · simp [Node.update_lambda_msg_from_child, update_received_msg_by_key, hc, hkm, hw]
      · simp [Node.update_lambda_msg_from_child, update_received_msg_by_key, hc, hkm, hw]
      · exact lookup_setKey _ _ _ (by rw [hc]; exact hkey)

/-- Witness for C6: on a cardinality-2 node with one parent `a` and one
child `c`, a length-3 deposit raises `ShapeMismatch` without touching the
node, and a length-2 deposit overwrites the slot. -/
theorem C6_update_msg_contract_witness :
    nodeC6.update_pi_msg_from_parent "a" (.ndarray [1, 2, 3]) =
      (.error .shapeMismatch, nodeC6) ∧
    nodeC6.update_pi_msg_from_parent "a" (.ndarray [1, 2]) =
      (.ok (), { nodeC6 with pi_received_msgs := [("a", some [1, 2])] }) ∧
    nodeC6.update_lambda_msg_from_child "z" (.ndarray [1, 2]) =
      (.error (.unknownNeighbor "z"), nodeC6) := by
  have h := C6_update_msg_contract nodeC6 "a" (by simp [nodeC6, mailboxKeys])
    (by simp [nodeC6, mailboxKeys])
  have h2 := C6_update_msg_contract nodeC6 "z" (by simp [nodeC6, mailboxKeys])
    (by simp [nodeC6, mailboxKeys])
  refine ⟨(h.1.2 (by simp [nodeC6])).2.1 [1, 2, 3] (by simp [nodeC6]), ?_,
    h2.2.1 (by simp [nodeC6]) (.ndarray [1, 2])⟩
  have h3 := ((h.1.2 (by simp [nodeC6])).2.2 [1, 2] (by simp [nodeC6])).1
  rw [h3]
  simp [nodeC6, setKey]

/-- Claim C10: `_update_received_msg_by_key` validates in the fixed order
key, then type, then shape: an undeclared key raises `UnknownNeighbor` for
every value, and for a declared key a non-array value raises `TypeMismatch`
even when its length differs from the cardinality. -/
theorem C10_validation_order (card : Nat) (d : Mailbox) (key : String) :
    ((mailboxKeys d).contains key = false →
      ∀ v : PyObj, update_received_msg_by_key card d key v =
        .error (.unknownNeighbor key)) ∧
    ((mailboxKeys d).contains key = true →
      ∀ w : Vec, w.length ≠ card →
        update_received_msg_by_key card d key (.pylist w) = .error .typeError) := by
  constructor
  · intro hkey v
    have hkm : key ∉ mailboxKeys d := by simpa using hkey
    simp [update_received_msg_by_key, hkm]
  · intro hkey w _hw
    have hkm : key ∈ mailboxKeys d := by simpa using hkey
    simp [update_received_msg_by_key, hkm]

/-- Witness for C10: on a mailbox with single key `a` and cardinality 2, an
unknown-key deposit of a wrong-type wrong-shape value reports the unknown
key, and a declared-key deposit of a length-3 plain list reports the type,
not the shape. -/
theorem C10_validation_order_witness :
    update_received_msg_by_key 2 [("a", none)] "b" (.ndarray [1, 2, 3]) =
      .error (.unknownNeighbor "b") ∧
    update_received_msg_by_key 2 [("a", none)] "a" (.pylist [1, 2, 3]) =
      .error .typeError := by
  refine ⟨(C10_validation_order 2 [("a", none)] "b").1 (by simp [mailboxKeys]) _,
    (C10_validation_order 2 [("a", none)] "a").2 (by simp [mailboxKeys])
      [1, 2, 3] (by simp)⟩

/-- Claim C9: each failing node operation leaves the node state — both
mailboxes and both aggregates — exactly as it was: a rejected deposit, a
`MissingMessage` from either aggregation, and any failure of
`compute_lambda_msg_to_parent` return the unchanged node. -/
theorem C9_atomic_failure :
    (∀ (n : Node) (k : String) (v : PyObj) (e : Err),
      (n.update_pi_msg_from_parent k v).1 = .error e →
      (n.update_pi_msg_from_parent k v).2 = n) ∧
    (∀ (n : Node) (k : String) (v : PyObj) (e : Err),
      (n.update_lambda_msg_from_child k v).1 = .error e →
      (n.update_lambda_msg_from_child k v).2 = n) ∧
    (∀ (n : Node) (e : Err),
      n.compute_lambda_agg.1 = .error e → n.compute_lambda_agg.2 = n) ∧
    (∀ (n : Node) (e : Err),
      (BernoulliOrNode.compute_pi_agg n).1 = .error e →
      (BernoulliOrNode.compute_pi_agg n).2 = n) ∧
    (∀ (n : Node) (k : String) (e : Err),
      (BernoulliOrNode.compute_lambda_msg_to_parent n k).1 = .error e →
      (BernoulliOrNode.compute_lambda_msg_to_parent n k).2 = n) := by
  refine ⟨fun n k v e h => ?_, fun n k v e h => ?_, fun n e h => ?_,
    fun n e h => ?_, fun n k e h => ?_⟩
  · unfold Node.update_pi_msg_from_parent at h ⊢
    cases hm : update_received_msg_by_key n.cardinality n.pi_received_msgs k v with
    | error e2 => simp [hm]
    | ok d => simp [hm] at h
  · unfold Node.update_lambda_msg_from_child at h ⊢
    cases hm : update_received_msg_by_key n.cardinality n.lambda_received_msgs k v with
    | error e2 => simp [hm]
    | ok d => simp [hm] at h
  · unfold Node.compute_lambda_agg at h ⊢
    cases hc : n.children.isEmpty with
    | true => simp [hc] at h
    | false =>
      cases hm : n.validate_and_return_msgs_received_for_msg_type .LAMBDA with
      | error e2 => simp [hc, hm]
      | ok msgs => simp [hc, hm] at h
  · unfold BernoulliOrNode.compute_pi_agg at h ⊢
    cases hp : n.parents.isEmpty with
    | true => simp [hp] at h
    | false =>
      cases hm : n.validate_and_return_msgs_received_for_msg_type .PI with
      | error e2 => simp [hp, hm]
      | ok msgs => simp [hp, hm] at h
  · clear h
    unfold BernoulliOrNode.compute_lambda_msg_to_parent
    dsimp only
    repeat' split
    all_goals rfl

/-- Witness for C9: each operation, run on a concrete node where it fails
(unknown neighbor, missing lambda message, missing pi message), returns the
node unchanged. -/
theorem C9_atomic_failure_witness :
    (nodeC9.update_pi_msg_from_parent "z" (.ndarray [1, 2])).2 = nodeC9 ∧
    (nodeC9.update_lambda_msg_from_child "z" (.ndarray [1, 2])).2 = nodeC9 ∧
    nodeC9.compute_lambda_agg.2 = nodeC9 ∧
    (BernoulliOrNode.compute_pi_agg nodeC9).2 = nodeC9 ∧
    (BernoulliOrNode.compute_lambda_msg_to_parent nodeC9 "a").2 = nodeC9 := by
  refine ⟨C9_atomic_failure.1 nodeC9 "z" (.ndarray [1, 2]) (.unknownNeighbor "z") ?_,
    C9_atomic_failure.2.1 nodeC9 "z" (.ndarray [1, 2]) (.unknownNeighbor "z") ?_,
    C9_atomic_failure.2.2.1 nodeC9 (.missingMessage .LAMBDA) ?_,
    C9_atomic_failure.2.2.2.1 nodeC9 (.missingMessage .PI) ?_,
    C9_atomic_failure.2.2.2.2 nodeC9 "a" (.missingMessage .PI) ?_⟩
  · simp [nodeC9, Node.update_pi_msg_from_parent, update_received_msg_by_key, mailboxKeys]
  · simp [nodeC9, Node.update_lambda_msg_from_child, update_received_msg_by_key, mailboxKeys]
  · simp [nodeC9, Node.compute_lambda_agg,
      Node.validate_and_return_msgs_received_for_msg_type,
      Node.return_msgs_received_for_msg_type]
  · simp [nodeC9, BernoulliOrNode.compute_pi_agg,
      Node.validate_and_return_msgs_received_for_msg_type,
      Node.return_msgs_received_for_msg_type]
  · simp [nodeC9, BernoulliOrNode.compute_lambda_msg_to_parent,
      Node.validate_and_return_msgs_received_for_msg_type,
      Node.return_msgs_received_for_msg_type]

theorem np_any_iff (v : Vec) : np_any v = true ↔ ∃ x ∈ v, x ≠ 0 := by
  simp [np_any]

theorem np_multiply_mem_nonneg (a b : Vec) (ha : ∀ x ∈ a, 0 ≤ x)
    (hb : ∀ x ∈ b, 0 ≤ x) : ∀ z ∈ np_multiply a b, 0 ≤ z := by
  induction a generalizing b with
  | nil => simp [np_multiply]
  | cons x a ih =>
    cases b with
    | nil => simp [np_multiply]
    | cons y b =>
      intro z hz
      simp only [np_multiply, List.zipWith_cons_cons, List.mem_cons] at hz
      rcases hz with hz | hz
      · subst hz
        exact mul_nonneg (ha x (by simp)) (hb y (by simp))
      · exact ih b (fun u hu => ha u (by simp [hu]))
          (fun u hu => hb u (by simp [hu])) z hz

theorem np_any_of_multiply (a b : Vec)
    (h : np_any (np_multiply a b) = true) :
    np_any a = true ∧ np_any b = true := by
  induction a generalizing b with
  | nil => simp [np_multiply, np_any] at h
  | cons x a ih =>
    cases b with
    | nil => simp [np_multiply, np_any] at h
    | cons y b =>
      rw [show np_multiply (x :: a) (y :: b) = (x * y) :: np_multiply a b from rfl,
        np_any_iff] at h
      obtain ⟨z, hz, hzne⟩ := h
      rcases List.mem_cons.mp hz with rfl | hzmem
      · exact ⟨(np_any_iff _).mpr ⟨x, by simp, left_ne_zero_of_mul hzne⟩,
          (np_any_iff _).mpr ⟨y, by simp, right_ne_zero_of_mul hzne⟩⟩
      · obtain ⟨h1, h2⟩ := ih b ((np_any_iff _).mpr ⟨z, hzmem, hzne⟩)
        obtain ⟨u, hu, hune⟩ := (np_any_iff _).mp h1
        obtain ⟨v, hv, hvne⟩ := (np_any_iff _).mp h2
        exact ⟨(np_any_iff _).mpr ⟨u, by simp [hu], hune⟩,
          (np_any_iff _).mpr ⟨v, by simp [hv], hvne⟩⟩

theorem sum_pos_of_nonneg_of_any (v : Vec) (hnn : ∀ x ∈ v, 0 ≤ x)
    (hany : np_any v = true) : 0 < v.sum := by
  induction v with
  | nil => simp [np_any] at hany
  | cons x t ih =>
    simp only [np_any, List.any_cons, Bool.or_eq_true, decide_eq_true_eq] at hany
    have hx : 0 ≤ x := hnn x (by simp)
    have ht : ∀ u ∈ t, 0 ≤ u := fun u hu => hnn u (by simp [hu])
    have htsum : 0 ≤ t.sum := List.sum_nonneg ht
    rcases hany with h | h
    · have : 0 < x := lt_of_le_of_ne hx (Ne.symm h)
      simp only [List.sum_cons]
      linarith
    · have := ih ht (by simpa [np_any] using h)
      simp only [List.sum_cons]
      linarith

theorem sum_map_div (v : Vec) (s : ℚ) : (v.map (fun x => x / s)).sum = v.sum / s := by
  induction v with
  | nil => simp
  | cons x t ih => simp [ih, add_div]

theorem normalize_sum_one (v : Vec) (h : v.sum ≠ 0) :
    (Node.normalize v).sum = 1 := by
  unfold Node.normalize
  rw [sum_map_div, div_self h]

theorem normalize_nonneg (v : Vec) (hnn : ∀ x ∈ v, 0 ≤ x) (hs : 0 < v.sum) :
    ∀ x ∈ Node.normalize v, 0 ≤ x := by
  intro x hx
  unfold Node.normalize at hx
  rw [List.mem_map] at hx
  obtain ⟨u, hu, rfl⟩ := hx
  exact div_nonneg (hnn u hu) (le_of_lt hs)

/-- Claim C1 (amended): `belief` raises `AttributeError` when `pi_agg` is
absent, and also when `pi_agg` has a non-zero element but `lambda_agg` is
absent; it is `None` when `pi_agg` is all-zero, or when `pi_agg` has a
non-zero element and `lambda_agg` is all-zero; otherwise it equals
`normalize(pi_agg * lambda_agg)` — including when that elementwise product
is entirely zero, in which case the result is a degenerate vector, not
`None`; and when both aggregates are elementwise non-negative and their
product has a non-zero element, the belief sums to 1 and is elementwise
non-negative. -/
theorem C1_belief_characterization (n : Node) :
    (n.pi_agg = none → n.belief = .error .attributeError) ∧
    (∀ pa : Vec, n.pi_agg = some pa → np_any pa = false →
      n.belief = .ok none) ∧
    (∀ pa : Vec, n.pi_agg = some pa → np_any pa = true →
      n.lambda_agg = none → n.belief = .error .attributeError) ∧
    (∀ pa la : Vec, n.pi_agg = some pa → n.lambda_agg = some la →
      np_any pa = true → np_any la = false → n.belief = .ok none) ∧
    (∀ pa la : Vec, n.pi_agg = some pa → n.lambda_agg = some la →
      np_any pa = true → np_any la = true →
      n.belief = .ok (some (Node.normalize (np_multiply pa la)))) ∧
    (∀ pa la : Vec, n.pi_agg = some pa → n.lambda_agg = some la →
      (∀ x ∈ pa, 0 ≤ x) → (∀ x ∈ la, 0 ≤ x) →
      np_any (np_multiply pa la) = true →
      n.belief = .ok (some (Node.normalize (np_multiply pa la))) ∧
      (Node.normalize (np_multiply pa la)).sum = 1 ∧
      ∀ x ∈ Node.normalize (np_multiply pa la), 0 ≤ x) := by
  refine ⟨fun hpa => ?_, fun pa hpa hz => ?_, fun pa hpa hnz hla => ?_,
    fun pa la hpa hla hnz hzl => ?_, fun pa la hpa hla hnza hnzl => ?_,
    fun pa la hpa hla hnn hnl hprod => ?_⟩
  · simp [Node.belief, hpa]
  · simp [Node.belief, hpa, hz]
  · simp [Node.belief, hpa, hnz, hla]
  · simp [Node.belief, hpa, hla, hnz, hzl]
  · simp [Node.belief, hpa, hla, hnza, hnzl]
  · have hboth := np_any_of_multiply pa la hprod
    have hnnp := np_multiply_mem_nonneg pa la hnn hnl
    have hpos := sum_pos_of_nonneg_of_any (np_multiply pa la) hnnp hprod
    refine ⟨by simp [Node.belief, hpa, hla, hboth.1, hboth.2],
      normalize_sum_one _ (ne_of_gt hpos), normalize_nonneg _ hnnp hpos⟩

/-- Counterexample to C1 as stated: with `pi_agg` absent and `lambda_agg`
present, `belief` raises `AttributeError` (from `None.any()`) instead of
returning `None`. -/
theorem C1_belief_counterexample :
    Node.belief nodeC1cex = .error .attributeError ∧
    Node.belief nodeC1cex ≠ .ok none := by
  constructor
  · simp [Node.belief, nodeC1cex]
  · simp [Node.belief, nodeC1cex]

/-- Witness for C1 (amended): with `pi_agg = [0.5, 0.5]` and
`lambda_agg = [1, 1]`, the belief is `[0.5, 0.5]`. -/
theorem C1_belief_characterization_witness :
    nodeC1w.belief = .ok (some [1/2, 1/2]) := by
  have h := ((C1_belief_characterization nodeC1w).2.2.2.2.2 [1/2, 1/2] [1, 1]
    (by simp [nodeC1w]) (by simp [nodeC1w]) (by norm_num)
    (by norm_num) (by norm_num [np_any, np_multiply])).1
  rw [h]
  norm_num [Node.normalize, np_multiply]

/-- Claim C7 (amended): `compute_pi_msg_to_child` raises
`PreconditionNotMet` when the child's lambda slot is unset; with the slot
set and the belief defined it returns `normalize` applied to the
elementwise `np.nan_to_num(np.divide(belief, msg))`, whose scalar policy
is: ordinary division for a non-zero divisor, `0/0` yields `0`, and `x/0`
for `x ≠ 0` yields plus or minus the largest finite double — not `0` as
the spec's safe-divide policy states. -/
theorem C7_pi_msg_to_child (n : Node) (child_k : String) :
    (n.lambda_received_msgs.lookup child_k = some none →
      n.compute_pi_msg_to_child child_k = .error .preconditionNotMet) ∧
    (∀ (msg b : Vec), n.lambda_received_msgs.lookup child_k = some (some msg) →
      n.belief = .ok (some b) →
      n.compute_pi_msg_to_child child_k =
        .ok (Node.normalize (np_nan_to_num_divide b msg))) ∧
    (np_nan_to_num_scalar (np_divide_scalar 0 0) = 0) ∧
    (∀ a : ℚ, 0 < a → np_nan_to_num_scalar (np_divide_scalar a 0) = floatMax) ∧
    (∀ a : ℚ, a < 0 → np_nan_to_num_scalar (np_divide_scalar a 0) = -floatMax) ∧
    (∀ a d : ℚ, d ≠ 0 → np_nan_to_num_scalar (np_divide_scalar a d) = a / d) := by
  refine ⟨fun hmiss => ?_, fun msg b hmsg hb => ?_, by
      simp [np_divide_scalar, np_nan_to_num_scalar], fun a ha => ?_,
    fun a ha => ?_, fun a d hd => ?_⟩
  · simp [Node.compute_pi_msg_to_child, hmiss]
  · simp [Node.compute_pi_msg_to_child, hmsg, hb]
  · simp [np_divide_scalar, np_nan_to_num_scalar, ne_of_gt ha, ha]
  · simp [np_divide_scalar, np_nan_to_num_scalar, ne_of_lt ha, lt_asymm ha]
  · simp [np_divide_scalar, np_nan_to_num_scalar, hd]

/-- Counterexample to C7 as stated: with belief `[0.5, 0.5]` and child
message `[1, 0]`, the spec's safe-divide policy predicts the message
`normalize([0.5, 0]) = [1, 0]`, but the code divides `0.5` by `0` into
`+inf`, which `np.nan_to_num` turns into the largest finite double, so the
result is a different (nearly opposite) distribution. -/
theorem C7_pi_msg_to_child_counterexample :
    Node.normalize (safe_divide_spec [1/2, 1/2] [1, 0]) = [1, 0] ∧
    Node.belief nodeC7cex = .ok (some [1/2, 1/2]) ∧
    Node.compute_pi_msg_to_child nodeC7cex "c" ≠ .ok [1, 0] := by
  refine ⟨by norm_num [Node.normalize, safe_divide_spec], ?_, ?_⟩
  · simp [Node.belief, nodeC7cex, np_any, np_multiply]
    norm_num [Node.normalize]
  · simp only [Node.compute_pi_msg_to_child, nodeC7cex]
    norm_num [Node.belief, np_any, np_multiply, Node.normalize, List.lookup,
      np_nan_to_num_divide, np_nan_to_num_scalar, np_divide_scalar, floatMax]

/-- Witness for C7 (amended): with belief `[0.5, 0.5]` and child message
`[1, 1]`, the pi message to the child is `normalize([0.5, 0.5]) =
[0.5, 0.5]`. -/
theorem C7_pi_msg_to_child_witness :
    Node.compute_pi_msg_to_child nodeC7w "c" = .ok [1/2, 1/2] := by
  have h := (C7_pi_msg_to_child nodeC7w "c").2.1 [1, 1] [1/2, 1/2]
    (by simp [nodeC7w, List.lookup])
    (by simp [Node.belief, nodeC7w, np_any, np_multiply]
        norm_num [Node.normalize])
  rw [h]
  norm_num [Node.normalize, np_nan_to_num_divide, np_nan_to_num_scalar,
    np_divide_scalar]

theorem keys_nodup_unique {d : List (String × Node)}
    (hnd : (d.map Prod.fst).Nodup) {k : String} {n₁ n₂ : Node}
    (h₁ : (k, n₁) ∈ d) (h₂ : (k, n₂) ∈ d) : n₁ = n₂ := by
  induction d with
  | nil => simp at h₁
  | cons hd tl ih =>
    simp only [List.map_cons, List.nodup_cons] at hnd
    rcases List.mem_cons.mp h₁ with h₁h | h₁t
    · rcases List.mem_cons.mp h₂ with h₂h | h₂t
      · rw [← h₁h] at h₂h
        simp at h₂h
        exact h₂h.symm
      · exfalso
        apply hnd.1
        rw [← h₁h]
        exact List.mem_map.mpr ⟨(k, n₂), h₂t, rfl⟩
    · rcases List.mem_cons.mp h₂ with h₂h | h₂t
      · exfalso
        apply hnd.1
        rw [← h₂h]
        exact List.mem_map.mpr ⟨(k, n₁), h₁t, rfl⟩
      · exact ih hnd.2 h₁t h₂t

theorem updNode_foldl (f : Node → Node) (ks : List String) (hnd : ks.Nodup) :
    ∀ d : List (String × Node),
    ks.foldl (fun d k => updNode d k f) d =
      d.map (fun kv => if kv.1 ∈ ks then (kv.1, f kv.2) else kv) := by
  induction ks with
  | nil =>
    intro d
    simp
  | cons k ks ih =>
    intro d
    simp only [List.nodup_cons] at hnd
    rw [List.foldl_cons, ih hnd.2]
    unfold updNode
    rw [List.map_map]
    apply List.map_congr_left
    intro kv _
    by_cases hk : kv.1 = k
    · simp [Function.comp, hk, hnd.1]
    · by_cases hks : kv.1 ∈ ks
      · simp [Function.comp, hk, hks]
      · simp [Function.comp, hk, hks]

theorem roots_mem_iff (m : Model) (hnd : (m.nodes_dict.map Prod.fst).Nodup)
    (k : String) (nd : Node) (hmem : (k, nd) ∈ m.nodes_dict) :
    k ∈ m.get_roots ↔ nd.parents = [] := by
  unfold Model.get_roots
  constructor
  · intro hk
    rw [List.mem_map] at hk
    obtain ⟨kv, hkv, hfst⟩ := hk
    rw [List.mem_filter] at hkv
    have : kv = (k, kv.2) := by rw [← hfst]
    rw [this] at hkv
    have := keys_nodup_unique hnd hmem hkv.1
    rw [this]
    simpa using hkv.2
  · intro hp
    rw [List.mem_map]
    exact ⟨(k, nd), List.mem_filter.mpr ⟨hmem, by simpa using hp⟩, rfl⟩

theorem leaves_mem_iff (m : Model) (hnd : (m.nodes_dict.map Prod.fst).Nodup)
    (k : String) (nd : Node) (hmem : (k, nd) ∈ m.nodes_dict) :
    k ∈ m.get_leaves ↔ nd.children = [] := by
  unfold Model.get_leaves
  constructor
  · intro hk
    rw [List.mem_map] at hk
    obtain ⟨kv, hkv, hfst⟩ := hk
    rw [List.mem_filter] at hkv
    have : kv = (k, kv.2) := by rw [← hfst]
    rw [this] at hkv
    have := keys_nodup_unique hnd hmem hkv.1
    rw [this]
    simpa using hkv.2
  · intro hp
    rw [List.mem_map]
    exact ⟨(k, nd), List.mem_filter.mpr ⟨hmem, by simpa using hp⟩, rfl⟩

theorem roots_nodup (m : Model) (hnd : (m.nodes_dict.map Prod.fst).Nodup) :
    m.get_roots.Nodup := by
  unfold Model.get_roots
  have hsub : ((m.nodes_dict.filter (fun kv => kv.2.parents.isEmpty)).map
      Prod.fst).Sublist (m.nodes_dict.map Prod.fst) :=
    (List.filter_sublist _).map Prod.fst
  exact hnd.sublist hsub

theorem leaves_nodup (m : Model) (hnd : (m.nodes_dict.map Prod.fst).Nodup) :
    m.get_leaves.Nodup := by
  unfold Model.get_leaves
  have hsub : ((m.nodes_dict.filter (fun kv => kv.2.children.isEmpty)).map
      Prod.fst).Sublist (m.nodes_dict.map Prod.fst) :=
    (List.filter_sublist _).map Prod.fst
  exact hnd.sublist hsub

/-- Claim C8: `set_boundary_conditions` sets `pi_agg` of every node with no
parents to its CPD values and `lambda_agg` of every node with no children
to the all-ones vector of its cardinality, leaving the other aggregate and
every other field — in particular both mailboxes — of every node exactly as
they were. -/
theorem C8_set_boundary_conditions (m : Model)
    (hnd : (m.nodes_dict.map Prod.fst).Nodup) (k : String) (nd : Node)
    (hmem : (k, nd) ∈ m.nodes_dict) :
    (k, { nd with
          pi_agg := if nd.parents = [] then some nd.cpd.values else nd.pi_agg,
          lambda_agg := if nd.children = [] then
            some (List.replicate nd.cardinality 1) else nd.lambda_agg }) ∈
      m.set_boundary_conditions.nodes_dict := by
  unfold Model.set_boundary_conditions
  dsimp only
  rw [updNode_foldl _ _ (roots_nodup m hnd), updNode_foldl _ _ (leaves_nodup m hnd),
    List.map_map]
  have hr := roots_mem_iff m hnd k nd hmem
  have hl := leaves_mem_iff m hnd k nd hmem
  have := List.mem_map_of_mem
    ((fun kv => if kv.1 ∈ m.get_leaves then (kv.1, { kv.2 with
        lambda_agg := some (List.replicate kv.2.cardinality 1) }) else kv) ∘
     (fun kv => if kv.1 ∈ m.get_roots then (kv.1, { kv.2 with
        pi_agg := some kv.2.cpd.values }) else kv)) hmem
  convert this using 1
  by_cases hp : nd.parents = []
  · by_cases hc : nd.children = []
    · have h1 : k ∈ m.get_roots := hr.mpr hp
      have h2 : k ∈ m.get_leaves := hl.mpr hc
      simp [Function.comp, h1, h2, hp, hc]
    · have h1 : k ∈ m.get_roots := hr.mpr hp
      have h2 : k ∉ m.get_leaves := fun h => hc (hl.mp h)
      simp [Function.comp, h1, h2, hp, hc]
  · by_cases hc : nd.children = []
    · have h1 : k ∉ m.get_roots := fun h => hp (hr.mp h)
      have h2 : k ∈ m.get_leaves := hl.mpr hc
      simp [Function.comp, h1, h2, hp, hc]
    · have h1 : k ∉ m.get_roots := fun h => hp (hr.mp h)
      have h2 : k ∉ m.get_leaves := fun h => hc (hl.mp h)
      simp [Function.comp, h1, h2, hp, hc]

/-- Witness for C8: in the two-node model, boundary setup gives the root
`pi_agg = [0.7, 0.3]` and the leaf `lambda_agg = [1, 1]`, mailboxes
untouched. -/
theorem C8_set_boundary_conditions_witness :
    ("r", { nodeC8r with pi_agg := some [7/10, 3/10] }) ∈
      modelC8.set_boundary_conditions.nodes_dict ∧
    ("l", { nodeC8l with lambda_agg := some [1, 1] }) ∈
      modelC8.set_boundary_conditions.nodes_dict := by
  have h1 := C8_set_boundary_conditions modelC8 (by simp [modelC8]) "r" nodeC8r
    (by simp [modelC8])
  have h2 := C8_set_boundary_conditions modelC8 (by simp [modelC8]) "l" nodeC8l
    (by simp [modelC8])
  constructor
  · simpa [nodeC8r, List.replicate] using h1
  · simpa [nodeC8l, List.replicate] using h2

end Beliefs
